import Mathlib

/-!
Verification development for the entity-extraction and contextual-retrieval core
of the thinking-graph backend.

The Python sources embedded here are
`backend/services/enhanced_entity_extractor.py` (class `AdvancedEntityExtractor`)
and `backend/services/context_service.py` (class `ContextService`).

Modelling conventions:
* Python strings are modelled as `List Char` (`StrL`); all string operations
  (`lower`, `strip`, `split`, substring membership, `istitle`, ...) are defined
  below to mirror the CPython behaviour on ASCII text.
* Python floats are modelled as rationals (`ℚ`): every constant appearing in
  the scoring code (0.5, 0.2, 0.1, 0.7, ...) is an exact decimal and the claims
  under study concern the structure of the arithmetic, not rounding.
* Regex scans used by `ContextService._extract_entities_from_input` are given
  direct character-level implementations (fuelled scanners) reproducing the
  leftmost, greedy, non-overlapping semantics of `re.findall` for the concrete
  patterns occurring in the source.
* The regex-driven candidate generation of the extractor (which text positions
  match which pattern) is not re-implemented; functions that consume its output
  are parametric in the raw candidate lists, exactly as the claims are.
* `datetime` timestamps are modelled as rationals (a totally ordered time axis);
  `extraction_timestamp` (wall-clock metadata) is omitted.
-/

/-- Python strings, modelled as lists of characters. -/
abbrev StrL := List Char

/-- Python whitespace for `str.strip` / `str.split` / regex `\s` (ASCII range):
space, tab, newline, carriage return, vertical tab, form feed. -/
def pyIsSpaceChar (c : Char) : Bool :=
  c = ' ' || c = '\t' || c = '\n' || c = '\r' || c = '\x0b' || c = '\x0c'

/-- Python `str.lower` (ASCII model). -/
def pyLower (s : StrL) : StrL := s.map Char.toLower

/-- Python `str.strip()` with no argument: remove leading and trailing whitespace. -/
def pyStrip (s : StrL) : StrL :=
  ((s.dropWhile pyIsSpaceChar).reverse.dropWhile pyIsSpaceChar).reverse

/-- Regex `\w` (ASCII model): letters, digits, underscore. -/
def isWordChar (c : Char) : Bool := c.isAlpha || c.isDigit || c = '_'

/-- Does `needle` occur at the start of `hay`? (helper for substring search). -/
def isSubAt : StrL → StrL → Bool
  | [], _ => true
  | _ :: _, [] => false
  | a :: as, b :: bs => a = b && isSubAt as bs

/-- Python `needle in hay` for strings: contiguous substring occurrence. -/
def containsSub (needle : StrL) : StrL → Bool
  | [] => isSubAt needle []
  | b :: bs => isSubAt needle (b :: bs) || containsSub needle bs

/-- Python `str.split()` with no argument: split on whitespace runs, dropping
empty pieces.  `acc` holds the (reversed) current token. -/
def pySplitAux : List Char → List Char → List StrL
  | [], acc => if acc.isEmpty then [] else [acc.reverse]
  | c :: rest, acc =>
    if pyIsSpaceChar c then
      if acc.isEmpty then pySplitAux rest [] else acc.reverse :: pySplitAux rest []
    else pySplitAux rest (c :: acc)

/-- Python `str.split()` (whitespace split). -/
def pySplitWS (s : StrL) : List StrL := pySplitAux s []

/-- Python `str.istitle` (ASCII model): uppercase letters may only follow
uncased characters, lowercase letters may only follow cased characters, and at
least one cased character occurs. `prevCased` tracks whether the previous
character was cased; `found` whether a cased character has been seen. -/
def pyIstitleAux : List Char → Bool → Bool → Bool
  | [], _, found => found
  | c :: rest, prevCased, found =>
    if c.isUpper then
      if prevCased then false else pyIstitleAux rest true true
    else if c.isLower then
      if prevCased then pyIstitleAux rest true true else false
    else pyIstitleAux rest false found

/-- Python `str.istitle` (ASCII model). -/
def pyIstitle (s : StrL) : Bool := pyIstitleAux s false false

/-- Python `str.isdigit` (ASCII model): non-empty and all digits. -/
def pyIsDigitStr (s : StrL) : Bool := !s.isEmpty && s.all Char.isDigit

/-- Clamp a score into `[0, 1]`, as `max(0.0, min(1.0, score))` does. -/
def clamp01 (q : ℚ) : ℚ := max 0 (min 1 q)

/-- Join string pieces with a separator, as Python `sep.join(parts)`. -/
def joinSep (sep : StrL) : List StrL → StrL
  | [] => []
  | [x] => x
  | x :: y :: rest => x ++ sep ++ joinSep sep (y :: rest)

/-! ### AdvancedEntityExtractor: stop words, noise filter, confidence scoring -/

/-- The extractor's five entity categories (`self.patterns` keys). -/
inductive Category
  | people
  | concepts
  | tools
  | locations
  | temporal_events
deriving DecidableEq

/-- `self.stop_words` of `AdvancedEntityExtractor.__init__`. -/
def stopWords : List StrL :=
  (["the", "a", "an", "and", "or", "but", "in", "on", "at", "to", "for",
    "of", "with", "by", "this", "that", "these", "those", "is", "are",
    "was", "were", "be", "been", "being", "have", "has", "had", "do",
    "does", "did", "will", "would", "could", "should", "may", "might"]).map String.data

/-- `AdvancedEntityExtractor._is_noise`: stop word, shorter than 2 characters,
purely numeric, or purely punctuation (neither word character nor whitespace). -/
def isNoise (entity : StrL) : Bool :=
  pyLower entity ∈ stopWords
  || entity.length < 2
  || pyIsDigitStr entity
  || (!entity.isEmpty && entity.all fun c => !isWordChar c && !pyIsSpaceChar c)

/-- The `+0.2` keyword group of `_calculate_confidence_score` for a category. -/
def kwBonusHigh : Category → List StrL
  | .people => (["said", "wrote", "thinks", "believes", "researcher", "professor", "dr."]).map String.data
  | .concepts => (["theory", "concept", "principle", "framework", "approach"]).map String.data
  | .tools => (["using", "with", "library", "framework", "tool"]).map String.data
  | .locations => []
  | .temporal_events => []

/-- The `+0.1` keyword group of `_calculate_confidence_score` for a category. -/
def kwBonusLow : Category → List StrL
  | .people => (["university", "published", "study", "research"]).map String.data
  | .concepts => (["understanding", "learning", "study", "analysis"]).map String.data
  | .tools => (["code", "programming", "software", "development"]).map String.data
  | .locations => []
  | .temporal_events => []

/-- Python `any(word in context_lower for word in words)`. -/
def anyKeywordIn (words : List StrL) (contextLower : StrL) : Bool :=
  words.any fun w => containsSub w contextLower

/-- Models `entity[0].isupper()`. The Python code would raise `IndexError` on an
empty string; all call sites guarantee `len(entity) >= 2`, and the theorems
below assume a non-empty entity. -/
def headIsUpper : StrL → Bool
  | [] => false
  | c :: _ => c.isUpper

/-- `AdvancedEntityExtractor._calculate_confidence_score`, transliterated
statement by statement (sequential score updates, final clamp). -/
def calcConfidenceScore (entity context : StrL) (category : Category) : ℚ :=
  let score : ℚ := 1/2
  let score := if entity.length < 3 then score - 1/5
               else if entity.length > 20 then score - 1/10 else score
  let score := if headIsUpper entity then score + 1/10 else score
  let score := if pyIstitle entity then score + 1/10 else score
  let contextLower := pyLower context
  let score := if anyKeywordIn (kwBonusHigh category) contextLower then score + 1/5 else score
  let score := if anyKeywordIn (kwBonusLow category) contextLower then score + 1/10 else score
  let score := if pyLower entity ∈ stopWords then score - 1/2 else score
  let score := if (pySplitWS entity).length > 5 then score - 1/5 else score
  max 0 (min 1 score)

/-- Confidence score as the specification words it: a base of 0.5 plus and
minus independent adjustment terms, clamped to `[0, 1]` last. -/
def confidenceRawScore (entity context : StrL) (category : Category) : ℚ :=
  1/2
  - (if entity.length < 3 then 1/5 else 0)
  - (if entity.length > 20 then 1/10 else 0)
  + (if headIsUpper entity then 1/10 else 0)
  + (if pyIstitle entity then 1/10 else 0)
  + (if anyKeywordIn (kwBonusHigh category) (pyLower context) then 1/5 else 0)
  + (if anyKeywordIn (kwBonusLow category) (pyLower context) then 1/10 else 0)
  - (if pyLower entity ∈ stopWords then 1/2 else 0)
  - (if (pySplitWS entity).length > 5 then 1/5 else 0)

/-- `AdvancedEntityExtractor._calculate_definition_confidence`. -/
def calcDefinitionConfidence (term definition : StrL) : ℚ :=
  let score : ℚ := 3/5
  let score := if (pySplitWS term).length ≤ 3 then score + 1/10 else score
  let score := if pyIstitle term then score + 1/10 else score
  let score := if definition.length > 20 then score + 1/10 else score
  let score := if definition.length > 50 then score + 1/10 else score
  let score := if anyKeywordIn
      ((["refers to", "means", "defined as", "is a type of"]).map String.data)
      (pyLower definition) then score + 1/10 else score
  max 0 (min 1 score)

/-! ### Definition extraction (`_extract_definitions`) -/

/-- Value stored under a term in the definitions dict. -/
structure DefEntry where
  definition : StrL
  confidence : ℚ
  context : StrL
deriving DecidableEq

/-- The length gate of `_extract_definitions`:
`len(term) > 2 and len(definition) > 10`. -/
def defnLengthOK (term definition : StrL) : Bool :=
  term.length > 2 && definition.length > 10

/-- Python dict assignment `definitions[term] = v`: replace the value in place
if the key exists, else append at the end. -/
def dictInsert (m : List (StrL × DefEntry)) (k : StrL) (v : DefEntry) :
    List (StrL × DefEntry) :=
  if m.any fun p => p.1 = k then
    m.map fun p => if p.1 = k then (k, v) else p
  else m ++ [(k, v)]

/-- Loop body of `_extract_definitions` for one regex match, given as
`(group(1), group(2), group(0))`.  The term and definition are stripped, then
pass the length gate, the noise filter on the term, and the 0.7 confidence
threshold. -/
def defnStep (defs : List (StrL × DefEntry)) (m : StrL × StrL × StrL) :
    List (StrL × DefEntry) :=
  let term := pyStrip m.1
  let definition := pyStrip m.2.1
  if defnLengthOK term definition && !isNoise term then
    let confidence := calcDefinitionConfidence term definition
    if 7/10 ≤ confidence then
      dictInsert defs term ⟨definition, confidence, m.2.2⟩
    else defs
  else defs

/-- `_extract_definitions`, parametric in the regex match results. -/
def extractDefinitionsModel (pairs : List (StrL × StrL × StrL)) :
    List (StrL × DefEntry) :=
  pairs.foldl defnStep []

/-! ### Entity merging and per-category deduplication -/

/-- The exact tier of `merge_similar_entities`: first existing name equal to
the candidate after lowercasing. -/
def exactTier (existing : List StrL) (newLower : StrL) : Option StrL :=
  existing.find? fun e => pyLower e = newLower

/-- The substring tier of `merge_similar_entities`: first existing name related
to the candidate by lowercased containment in either direction. -/
def substrTier (existing : List StrL) (newLower : StrL) : Option StrL :=
  existing.find? fun e =>
    containsSub newLower (pyLower e) || containsSub (pyLower e) newLower

/-- `AdvancedEntityExtractor.merge_similar_entities`, in the deployment without
the optional sentence-embedding backend (`self.semantic_model is None`), so the
semantic tier is skipped and only the exact and substring tiers run. -/
def mergeSimilarEntities (existing : List StrL) (newEntity : StrL) : Option StrL :=
  if existing.isEmpty || newEntity.isEmpty then none
  else
    match exactTier existing (pyLower newEntity) with
    | some e => some e
    | none =>
      match substrTier existing (pyLower newEntity) with
      | some e => if newEntity.length > e.length then some newEntity else some e
      | none => none

/-- One entity candidate as produced by `_extract_category_entities` (the
bookkeeping fields `pattern_matched` and `position`, read by no claim, are
omitted). -/
structure CatEntity where
  name : StrL
  confidence : ℚ
  context : StrL
deriving DecidableEq

/-- Loop body of `_clean_and_deduplicate` for one category list: the state is
`(unique_entities, seen_names)`; `seen_names` is a set of lowercased names,
modelled as a list used only through membership. -/
def cleanStep (st : List CatEntity × List StrL) (e : CatEntity) :
    List CatEntity × List StrL :=
  let entityLower := pyLower e.name
  if entityLower ∈ st.2 then st
  else
    match mergeSimilarEntities (st.1.map fun u => u.name) e.name with
    | some merged =>
      if merged = e.name then
        ((st.1.filter fun u => !(pyLower u.name = pyLower merged)) ++ [e],
         (st.2.filter fun x => !(x = pyLower merged)) ++ [entityLower])
      else st
    | none => (st.1 ++ [e], st.2 ++ [entityLower])

/-- Descending stable order on confidence used by
`unique_entities.sort(key=..., reverse=True)`: a stable sort with this
relation coincides with CPython's stable descending sort. -/
def confGE (a b : CatEntity) : Prop := b.confidence ≤ a.confidence

instance : DecidableRel confGE := fun a b => by
  unfold confGE; infer_instance

instance : IsTotal CatEntity confGE :=
  ⟨fun a b => le_total b.confidence a.confidence⟩

instance : IsTrans CatEntity confGE :=
  ⟨fun _ _ _ h1 h2 => le_trans h2 h1⟩

/-- `_clean_and_deduplicate` restricted to one category list: fold the dedup
loop, then sort by confidence descending. -/
def cleanCategoryList (l : List CatEntity) : List CatEntity :=
  List.insertionSort confGE (l.foldl cleanStep ([], [])).1

/-- The `entities` dict built by `extract_entities_with_confidence`: five
category lists plus the definitions dict. -/
structure EntitiesDict where
  people : List CatEntity
  concepts : List CatEntity
  tools : List CatEntity
  locations : List CatEntity
  temporal_events : List CatEntity
  definitions : List (StrL × DefEntry)
deriving DecidableEq

/-- `_clean_and_deduplicate`: each category list is deduplicated and sorted;
the definitions dict is passed through unchanged. -/
def cleanAndDeduplicate (d : EntitiesDict) : EntitiesDict :=
  { people := cleanCategoryList d.people
    concepts := cleanCategoryList d.concepts
    tools := cleanCategoryList d.tools
    locations := cleanCategoryList d.locations
    temporal_events := cleanCategoryList d.temporal_events
    definitions := d.definitions }

/-! ### Overall confidence and entity count -/

/-- Accumulation step of `_calculate_overall_confidence` over one category
list: bump the entity count and add the confidence, per entity. -/
def confAccum (acc : Nat × ℚ) (l : List CatEntity) : Nat × ℚ :=
  l.foldl (fun a e => (a.1 + 1, a.2 + e.confidence)) acc

/-- `AdvancedEntityExtractor._calculate_overall_confidence`: iterate over all
categories and the definitions dict accumulating `(total_entities,
total_confidence)`, then divide (0 if no entities). -/
def calcOverallConfidence (d : EntitiesDict) : ℚ :=
  let acc := confAccum (confAccum (confAccum (confAccum (confAccum (0, 0)
    d.people) d.concepts) d.tools) d.locations) d.temporal_events
  let acc := d.definitions.foldl (fun a td => (a.1 + 1, a.2 + td.2.confidence)) acc
  if acc.1 > 0 then acc.2 / (acc.1 : ℚ) else 0

/-- `AdvancedEntityExtractor._count_total_entities`. -/
def countTotalEntities (d : EntitiesDict) : Nat :=
  ((((d.people.length + d.concepts.length) + d.tools.length)
    + d.locations.length) + d.temporal_events.length) + d.definitions.length

/-- The aggregate returned by `extract_entities_with_confidence`
(`extraction_timestamp`, wall-clock metadata, is omitted). -/
structure ExtractionResult where
  entities : EntitiesDict
  overall_confidence : ℚ
  total_entities : Nat

/-- Tail of `extract_entities_with_confidence` after the per-category regex
passes: clean and deduplicate the raw candidate dict, then attach the overall
confidence and the total count.  The function is parametric in the raw
candidate dict, which the regex passes produce from the input text. -/
def extractEntitiesModel (raw : EntitiesDict) : ExtractionResult :=
  let cleaned := cleanAndDeduplicate raw
  { entities := cleaned
    overall_confidence := calcOverallConfidence cleaned
    total_entities := countTotalEntities cleaned }

/-- All confidence values of a candidate dict: the five category lists in dict
order followed by the definitions. -/
def allConfidences (d : EntitiesDict) : List ℚ :=
  (d.people.map fun e => e.confidence) ++ (d.concepts.map fun e => e.confidence)
  ++ (d.tools.map fun e => e.confidence) ++ (d.locations.map fun e => e.confidence)
  ++ (d.temporal_events.map fun e => e.confidence)
  ++ (d.definitions.map fun td => td.2.confidence)

/-! ### ContextService: mention extraction from user input

`_extract_entities_from_input` combines four methods.  The three regex scans
(methods 2-4) are implemented below as fuelled character scanners reproducing
`re.findall` for the concrete patterns in the source. -/

/-- Regex `\b` test on the right of a match: the next character, if any, must
not be a word character (the last matched character is always a letter). -/
def boundaryAfter : StrL → Bool
  | [] => true
  | c :: _ => !isWordChar c

/-- One unit `[A-Z][a-z]+` of the capitalized-words pattern, with the greedy
maximal lowercase run; returns the matched unit and the remaining input. -/
def capFirstWord : StrL → Option (StrL × StrL)
  | [] => none
  | c :: rest =>
    if c.isUpper then
      let lowers := rest.takeWhile Char.isLower
      if lowers.isEmpty then none else some (c :: lowers, rest.drop lowers.length)
    else none

/-- The greedy `(?:\s+[A-Z][a-z]+)*\b` tail of the capitalized-words pattern:
prefer one more `\s+[A-Z][a-z]+` repetition, fall back to checking the word
boundary at the current position (after a repetition the fallback position
follows a whitespace character, so its boundary always holds). -/
def capStar : Nat → StrL → StrL → Option (StrL × StrL)
  | 0, _, _ => none
  | fuel + 1, acc, s =>
    let tryHere : Option (StrL × StrL) := if boundaryAfter s then some (acc, s) else none
    let ws := s.takeWhile pyIsSpaceChar
    if ws.isEmpty then tryHere
    else
      match capFirstWord (s.drop ws.length) with
      | some (w, rest) =>
        match capStar fuel (acc ++ ws ++ w) rest with
        | some r => some r
        | none => tryHere
      | none => tryHere

/-- Scanner for `re.findall(r'\b[A-Z][a-z]+(?:\s+[A-Z][a-z]+)*\b', text)`
(method 2 of `_extract_entities_from_input`): leftmost non-overlapping
matches; `prev` is the character before the current position for the left
`\b` test. -/
def capScan : Nat → Option Char → StrL → List StrL
  | 0, _, _ => []
  | _ + 1, _, [] => []
  | fuel + 1, prev, c :: rest =>
    let bOK := match prev with | none => true | some p => !isWordChar p
    if bOK then
      match capFirstWord (c :: rest) with
      | some (w, r1) =>
        match capStar (fuel + 1) w r1 with
        | some (m, r2) => m :: capScan fuel m.getLast? r2
        | none => capScan fuel (some c) rest
      | none => capScan fuel (some c) rest
    else capScan fuel (some c) rest

/-- Method 2: capitalized word sequences. -/
def capWords (s : StrL) : List StrL := capScan (s.length + 1) none s

/-- Scanner for `re.findall(r'"([^"]+)"', text)` (method 3): a double quote, at
least one non-quote character, a closing double quote; scanning resumes after
the closing quote. -/
def quotedScan : Nat → StrL → List StrL
  | 0, _ => []
  | fuel + 1, s =>
    match s with
    | [] => []
    | c :: rest =>
      if c = '\"' then
        let content := rest.takeWhile fun d => !(d = '\"')
        match rest.drop content.length with
        | [] => []
        | _ :: r2 =>
          if content.isEmpty then quotedScan fuel rest
          else content :: quotedScan fuel r2
      else quotedScan fuel rest

/-- Method 3: double-quoted terms. -/
def quotedTerms (s : StrL) : List StrL := quotedScan (s.length + 1) s

/-- The analogous scanner for single quotes, `re.findall(r"'([^']+)'", text)`.
The specification claims single-quoted substrings are also extracted; the code
has no such scan, so this definition exists only on the specification side of
the comparison. -/
def squotedScan : Nat → StrL → List StrL
  | 0, _ => []
  | fuel + 1, s =>
    match s with
    | [] => []
    | c :: rest =>
      if c = '\'' then
        let content := rest.takeWhile fun d => !(d = '\'')
        match rest.drop content.length with
        | [] => []
        | _ :: r2 =>
          if content.isEmpty then squotedScan fuel rest
          else content :: squotedScan fuel r2
      else squotedScan fuel rest

/-- Single-quoted terms (specification side only). -/
def singleQuotedTerms (s : StrL) : List StrL := squotedScan (s.length + 1) s

/-- The fixed acronym vocabulary of method 4, in the source's alternation
order. -/
def acronymStrs : List StrL :=
  (["AI", "ML", "API", "GPU", "CPU", "HTTP", "JSON", "XML", "SQL", "NoSQL"]).map String.data

/-- Case-insensitive literal match: does the second argument start with the
first, compared character by character through `toLower`? -/
def ciMatchAt : StrL → StrL → Bool
  | [], _ => true
  | _ :: _, [] => false
  | a :: as, b :: bs => (Char.toLower b == Char.toLower a) && ciMatchAt as bs

/-- Try the acronym alternation at the current position (case-insensitive,
original casing returned, right `\b` checked per alternative as the regex
engine backtracks through the alternation). -/
def acrTryAt (s : StrL) : Option (StrL × StrL) :=
  acronymStrs.findSome? fun a =>
    if ciMatchAt a s then
      if boundaryAfter (s.drop a.length) then some (s.take a.length, s.drop a.length)
      else none
    else none

/-- Scanner for
`re.findall(r'\b(?:AI|ML|API|GPU|CPU|HTTP|JSON|XML|SQL|NoSQL)\b', text, re.IGNORECASE)`
(method 4). -/
def acrScan : Nat → Option Char → StrL → List StrL
  | 0, _, _ => []
  | _ + 1, _, [] => []
  | fuel + 1, prev, c :: rest =>
    let bOK := match prev with | none => true | some p => !isWordChar p
    if bOK then
      match acrTryAt (c :: rest) with
      | some (m, r2) => m :: acrScan fuel m.getLast? r2
      | none => acrScan fuel (some c) rest
    else acrScan fuel (some c) rest

/-- Method 4: technical acronyms, original casing. -/
def acronymMatches (s : StrL) : List StrL := acrScan (s.length + 1) none s

/-- Method 1 models the call to
`entity_extractor.extract_entities_with_confidence` followed by
`[entity['text'] for entity in entity_list]` for every category.  The
extractor's records carry the key `'name'`, not `'text'`, so the first record
of any non-empty category list raises `KeyError` (and a non-empty definitions
dict raises `TypeError`, its iteration yielding plain strings); nothing has
been added to `entities` at that point.  An entirely empty result iterates
over nothing and contributes nothing.  Errors are caught by the
`try/except` around method 1. -/
def advancedNamesOrError (adv : EntitiesDict) : Except Unit (List StrL) :=
  if adv.people.isEmpty && adv.concepts.isEmpty && adv.tools.isEmpty
      && adv.locations.isEmpty && adv.temporal_events.isEmpty
      && adv.definitions.isEmpty then
    Except.ok []
  else Except.error ()

/-- Names contributed by method 1 after the `except` clause: the error case
contributes nothing. -/
def method1Names (adv : EntitiesDict) : List StrL :=
  match advancedNamesOrError adv with
  | Except.ok l => l
  | Except.error _ => []

/-- The clean-and-deduplicate loop at the end of
`_extract_entities_from_input`: keys are stripped lowercased mentions, kept
values are stripped mentions, entries with key length `<= 2` or an already
seen key are skipped. -/
def cleanMentionsLoop : List StrL → List StrL → List StrL
  | [], _ => []
  | e :: rest, seen =>
    let stripped := pyStrip e
    let cleanKey := pyLower stripped
    if cleanKey.length > 2 ∧ cleanKey ∉ seen then
      stripped :: cleanMentionsLoop rest (cleanKey :: seen)
    else cleanMentionsLoop rest seen

/-- `ContextService._extract_entities_from_input`, parametric in the advanced
extractor's result for the input text (`adv`): concatenate the four methods'
mentions, clean and deduplicate, cap at `max_context_entities = 10`. -/
def extractEntitiesFromInput (adv : EntitiesDict) (text : StrL) : List StrL :=
  let entities := method1Names adv ++ capWords text ++ quotedTerms text ++ acronymMatches text
  (cleanMentionsLoop entities []).take 10

/-- Declarative case-insensitive deduplication keeping the first occurrence
(specification side). -/
def dedupFirstLower : List StrL → List StrL
  | [] => []
  | x :: xs => x :: dedupFirstLower (xs.filter fun y => !(pyLower y = pyLower x))
termination_by l => l.length
decreasing_by
  simp only [List.length_cons]
  exact Nat.lt_succ_of_le (List.length_filter_le _ _)

/-- The mention pipeline as the specification words it: normalize each raw
mention (strip), drop entries of 2 or fewer characters, deduplicate
case-insensitively keeping the original casing of the first occurrence, cap
at 10. -/
def mentionPipelineSpec (sources : List StrL) : List StrL :=
  (dedupFirstLower ((sources.map pyStrip).filter fun s => 2 < s.length)).take 10

/-- The claimed mention list: union of (a) the extractor's category results
flattened to names, (b) capitalized sequences, (c) double- and single-quoted
substrings, (d) the acronym vocabulary, then the dedup-and-cap pipeline. -/
def claimedMentionList (adv : EntitiesDict) (text : StrL) : List StrL :=
  mentionPipelineSpec
    ((adv.people ++ adv.concepts ++ adv.tools ++ adv.locations
        ++ adv.temporal_events).map (fun e => e.name)
      ++ capWords text ++ quotedTerms text ++ singleQuotedTerms text
      ++ acronymMatches text)

/-! ### ContextService: graph records, ranking, context assembly -/

/-- One element of an entity record's `related_thoughts` (from the entity
context query; `OPTIONAL MATCH` can leave `content`, `type`, `confidence`,
`session_id` null, modelled as `Option`). -/
structure ThoughtRec where
  content : Option StrL
  ttype : Option StrL
  confidence : Option ℚ
  timestamp : ℚ
  session_id : Option StrL
deriving DecidableEq

/-- One element of an entity record's `related_entities`. -/
structure RelatedRec where
  name : StrL
  rtype : StrL
  relationship : StrL
deriving DecidableEq

/-- One record of the entity context query. -/
structure EntityRec where
  entity_name : StrL
  entity_types : List StrL
  definition : Option StrL
  related_thoughts : List ThoughtRec
  related_entities : List RelatedRec
deriving DecidableEq

/-- One record of the session context query. -/
structure SessionRec where
  content : Option StrL
  ttype : Option StrL
  confidence : Option ℚ
  timestamp : ℚ
  mentioned_entities : List StrL
deriving DecidableEq

/-- One record of the similar-sessions query. -/
structure SimilarRec where
  session_id : StrL
  strategy : Option StrL
  domain : Option StrL
  entity_overlap : Nat
  sample_thoughts : List StrL
deriving DecidableEq

/-- The dict returned by `_query_context_from_graph`. -/
structure ContextData where
  entity_context : List EntityRec
  session_context : List SessionRec
  similar_sessions : List SimilarRec
deriving DecidableEq

/-- A `thought_info` dict built by `_format_and_rank_context` (entity-derived
thoughts carry `session_id`, session-derived thoughts carry
`mentioned_entities`; the respectively absent key is modelled as `none`). -/
structure ThoughtInfo where
  content : StrL
  ttype : StrL
  confidence : ℚ
  timestamp : ℚ
  session_id : Option StrL
  mentioned_entities : Option (List StrL)
  relevance_score : ℚ
deriving DecidableEq

/-- An `entity_info` dict built by `_format_and_rank_context`. -/
structure EntityInfo where
  name : StrL
  types : List StrL
  definition : Option StrL
  mention_count : Nat
  related_concepts : List StrL
deriving DecidableEq

/-- The context dict returned by `get_conversation_context`.  The early-return
and exception paths return a dict with only the first, second and fourth keys;
the absent keys are modelled as empty lists. -/
structure ConversationContext where
  related_entities : List EntityInfo
  related_thoughts : List ThoughtInfo
  similar_sessions : List SimilarRec
  context_summary : StrL
  extracted_entities : List StrL
deriving DecidableEq

/-- `ContextService._calculate_thought_relevance`. -/
def calcThoughtRelevance (content : StrL) (mentioned : List StrL) : ℚ :=
  if content.isEmpty || mentioned.isEmpty then 0
  else
    let contentLower := pyLower content
    let matchCount := mentioned.countP fun e => containsSub (pyLower e) contentLower
    let relevance := if !mentioned.isEmpty then (matchCount : ℚ) / (mentioned.length : ℚ) else 0
    let exactMatches := mentioned.countP fun e => containsSub e content
    min (relevance + (exactMatches : ℚ) * (1/5)) 1

/-- The relevance score as the specification words it: the fraction of
mentioned entities whose lowercase form occurs in the lowercase content, plus
0.2 for each mentioned entity occurring as an exact-case substring, clamped to
1.0 last. -/
def relevanceFormulaSpec (content : StrL) (mentioned : List StrL) : ℚ :=
  min 1
    (((mentioned.countP fun e => containsSub (pyLower e) (pyLower content)) : ℚ)
        / (mentioned.length : ℚ)
      + ((mentioned.countP fun e => containsSub e content) : ℚ) * (1/5))

/-- Display truncation: `content[:200] + '...'` when longer than 200. -/
def truncateContent (c : StrL) : StrL :=
  if c.length > 200 then c.take 200 ++ ("...".data) else c

/-- The `entity_info` built for one entity record. -/
def entityInfoOf (r : EntityRec) : EntityInfo :=
  { name := r.entity_name
    types := r.entity_types
    definition := r.definition
    mention_count := r.related_thoughts.length
    related_concepts := (r.related_entities.take 3).map fun x => x.name }

/-- Thought candidates contributed by one entity record: the first 2 of its
related thoughts, kept when the content is non-null, non-empty and longer
than 10 characters once stripped. -/
def entityRecordThoughts (mentioned : List StrL) (r : EntityRec) : List ThoughtInfo :=
  (r.related_thoughts.take 2).filterMap fun t =>
    match t.content with
    | none => none
    | some c =>
      if c ≠ [] ∧ 10 < (pyStrip c).length then
        some { content := truncateContent c
               ttype := t.ttype.getD ("unknown".data)
               confidence := t.confidence.getD (1/2)
               timestamp := t.timestamp
               session_id := t.session_id
               mentioned_entities := none
               relevance_score := calcThoughtRelevance c mentioned }
      else none

/-- Thought candidates contributed by the session context records, same
content filter. -/
def sessionThoughtInfos (mentioned : List StrL) (recs : List SessionRec) : List ThoughtInfo :=
  recs.filterMap fun r =>
    match r.content with
    | none => none
    | some c =>
      if c ≠ [] ∧ 10 < (pyStrip c).length then
        some { content := truncateContent c
               ttype := r.ttype.getD ("session".data)
               confidence := r.confidence.getD (1/2)
               timestamp := r.timestamp
               session_id := none
               mentioned_entities := some r.mentioned_entities
               relevance_score := calcThoughtRelevance c mentioned }
      else none

/-- All thought candidates, entity context first, then session context, in
source order (the order in which the code appends to `related_thoughts`). -/
def allThoughtCandidates (data : ContextData) (mentioned : List StrL) : List ThoughtInfo :=
  (data.entity_context.flatMap (entityRecordThoughts mentioned))
    ++ sessionThoughtInfos mentioned data.session_context

/-- Sort key of `related_thoughts.sort(key=lambda x: (x['relevance_score'],
x.get('timestamp', datetime.min)), reverse=True)`. -/
def thoughtKey (t : ThoughtInfo) : ℚ × ℚ := (t.relevance_score, t.timestamp)

/-- Lexicographic `<=` on sort keys. -/
def keyLexLe (p q : ℚ × ℚ) : Prop := p.1 < q.1 ∨ (p.1 = q.1 ∧ p.2 ≤ q.2)

/-- Descending order on thought candidates: `a` ranks at least as high as `b`.
A stable sort with this relation coincides with CPython's stable
`reverse=True` tuple sort. -/
def thoughtGE (a b : ThoughtInfo) : Prop := keyLexLe (thoughtKey b) (thoughtKey a)

instance : DecidableRel thoughtGE := fun a b => by
  unfold thoughtGE keyLexLe; infer_instance

theorem keyLexLe_total (p q : ℚ × ℚ) : keyLexLe p q ∨ keyLexLe q p := by
  unfold keyLexLe
  rcases lt_trichotomy p.1 q.1 with h | h | h
  · exact Or.inl (Or.inl h)
  · rcases le_total p.2 q.2 with h2 | h2
    · exact Or.inl (Or.inr ⟨h, h2⟩)
    · exact Or.inr (Or.inr ⟨h.symm, h2⟩)
  · exact Or.inr (Or.inl h)

theorem keyLexLe_trans {p q r : ℚ × ℚ} (h1 : keyLexLe p q) (h2 : keyLexLe q r) :
    keyLexLe p r := by
  unfold keyLexLe at h1 h2 ⊢
  rcases h1 with h1 | ⟨e1, le1⟩
  · rcases h2 with h2 | ⟨e2, le2⟩
    · exact Or.inl (lt_trans h1 h2)
    · exact Or.inl (e2 ▸ h1)
  · rcases h2 with h2 | ⟨e2, le2⟩
    · exact Or.inl (e1 ▸ h2)
    · exact Or.inr ⟨e1.trans e2, le1.trans le2⟩

instance : IsTotal ThoughtInfo thoughtGE :=
  ⟨fun a b => keyLexLe_total (thoughtKey b) (thoughtKey a)⟩

instance : IsTrans ThoughtInfo thoughtGE :=
  ⟨fun _ _ _ h1 h2 => keyLexLe_trans h2 h1⟩

/-- Decimal numeral of a natural number, for f-string counts. -/
def natStr (n : Nat) : StrL := (Nat.repr n).data

/-- `ContextService._generate_context_summary`. -/
def generateContextSummary (entities : List EntityInfo) (thoughts : List ThoughtInfo)
    (similar : List SimilarRec) : StrL :=
  if entities.isEmpty ∧ thoughts.isEmpty then
    "No relevant context found from previous conversations.".data
  else
    let parts : List StrL :=
      (if !entities.isEmpty then
        [("Previously discussed: ".data)
          ++ joinSep (", ".data) ((entities.take 3).map fun e => e.name)]
       else [])
      ++ (if !thoughts.isEmpty then
        [natStr thoughts.length ++ (" related insights found".data)] else [])
      ++ (if !similar.isEmpty then
        [natStr similar.length ++ (" related conversations".data)] else [])
    joinSep (". ".data) parts ++ (".".data)

/-- `ContextService._format_and_rank_context`: build entity infos and thought
candidates, sort thoughts by `(relevance_score, timestamp)` descending
(stable), generate the summary from the full sorted list, then cap the lists. -/
def formatAndRankContext (data : ContextData) (mentioned : List StrL) : ConversationContext :=
  let relatedEntities := data.entity_context.map entityInfoOf
  let sortedThoughts := List.insertionSort thoughtGE (allThoughtCandidates data mentioned)
  { related_entities := relatedEntities.take 10
    related_thoughts := sortedThoughts.take 5
    similar_sessions := data.similar_sessions.take 3
    context_summary := generateContextSummary relatedEntities sortedThoughts data.similar_sessions
    extracted_entities := mentioned }

/-- Outcome of `get_conversation_context`: the returned context, plus whether
the knowledge-graph session was opened (`with self.kg_builder.driver.session()`). -/
structure GCCOutcome where
  ctx : ConversationContext
  queriedGraph : Bool
deriving DecidableEq

/-- `ContextService.get_conversation_context`.  The graph interaction is the
only fallible step and is modelled by the `graph` argument: `Except.ok data`
stands for a successful `_query_context_from_graph`, `Except.error e` for any
exception raised after entity extraction; the surrounding `try/except` turns
the latter into the constant fallback dict. -/
def getConversationContext {E : Type} (adv : EntitiesDict) (text : StrL)
    (graph : Except E ContextData) : GCCOutcome :=
  let mentioned := extractEntitiesFromInput adv text
  if mentioned.isEmpty then
    ⟨{ related_entities := [], related_thoughts := [], similar_sessions := []
       context_summary := [], extracted_entities := [] }, false⟩
  else
    match graph with
    | Except.ok data => ⟨formatAndRankContext data mentioned, true⟩
    | Except.error _ =>
      ⟨{ related_entities := [], related_thoughts := [], similar_sessions := []
         context_summary := "Context extraction failed".data, extracted_entities := [] }, true⟩

/-! ### General helper lemmas -/

theorem pyLower_length (s : StrL) : (pyLower s).length = s.length := by
  simp [pyLower]

theorem clamp01_nonneg (q : ℚ) : 0 ≤ clamp01 q := le_max_left 0 _

theorem clamp01_le_one (q : ℚ) : clamp01 q ≤ 1 :=
  max_le (by norm_num) (min_le_left _ _)

theorem method1Names_nil (adv : EntitiesDict) : method1Names adv = [] := by
  unfold method1Names advancedNamesOrError
  by_cases h : (adv.people.isEmpty && adv.concepts.isEmpty && adv.tools.isEmpty
      && adv.locations.isEmpty && adv.temporal_events.isEmpty
      && adv.definitions.isEmpty) = true
  · rw [if_pos h]
  · rw [if_neg h]

theorem space_char_cases {c : Char} (h : pyIsSpaceChar c = true) :
    c = ' ' ∨ c = '\t' ∨ c = '\n' ∨ c = '\r' ∨ c = '\x0b' ∨ c = '\x0c' := by
  simpa [pyIsSpaceChar, or_assoc] using h

theorem isUpper_false_of_space {c : Char} (h : pyIsSpaceChar c = true) :
    c.isUpper = false := by
  rcases space_char_cases h with h | h | h | h | h | h <;> subst h <;> decide

theorem ne_dquote_of_space {c : Char} (h : pyIsSpaceChar c = true) :
    (c = '\"') = False := by
  rcases space_char_cases h with h | h | h | h | h | h <;> subst h <;> simp

theorem acrTryAt_none_of_space {c : Char} (rest : StrL) (h : pyIsSpaceChar c = true) :
    acrTryAt (c :: rest) = none := by
  rcases space_char_cases h with h | h | h | h | h | h <;> subst h <;> rfl

theorem capFirstWord_none_of_space {c : Char} (rest : StrL) (h : pyIsSpaceChar c = true) :
    capFirstWord (c :: rest) = none := by
  unfold capFirstWord
  simp [isUpper_false_of_space h]

theorem capScan_nil_of_space (s : StrL) (h : ∀ c ∈ s, pyIsSpaceChar c = true) :
    ∀ fuel prev, capScan fuel prev s = [] := by
  induction s with
  | nil => intro fuel prev; cases fuel <;> rfl
  | cons c rest ih =>
    intro fuel prev
    cases fuel with
    | zero => rfl
    | succ f =>
      have hc := h c (List.mem_cons_self c rest)
      have hrest := fun d hd => h d (List.mem_cons_of_mem c hd)
      simp only [capScan, capFirstWord_none_of_space rest hc]
      split <;> exact ih hrest f (some c)

theorem quotedScan_nil_of_space (s : StrL) (h : ∀ c ∈ s, pyIsSpaceChar c = true) :
    ∀ fuel, quotedScan fuel s = [] := by
  induction s with
  | nil => intro fuel; cases fuel <;> rfl
  | cons c rest ih =>
    intro fuel
    cases fuel with
    | zero => rfl
    | succ f =>
      have hc := h c (List.mem_cons_self c rest)
      have hrest := fun d hd => h d (List.mem_cons_of_mem c hd)
      simp only [quotedScan, ne_dquote_of_space hc, if_false]
      exact ih hrest f

theorem acrScan_nil_of_space (s : StrL) (h : ∀ c ∈ s, pyIsSpaceChar c = true) :
    ∀ fuel prev, acrScan fuel prev s = [] := by
  induction s with
  | nil => intro fuel prev; cases fuel <;> rfl
  | cons c rest ih =>
    intro fuel prev
    cases fuel with
    | zero => rfl
    | succ f =>
      have hc := h c (List.mem_cons_self c rest)
      have hrest := fun d hd => h d (List.mem_cons_of_mem c hd)
      simp only [acrScan, acrTryAt_none_of_space rest hc]
      split <;> exact ih hrest f (some c)

theorem extractEntitiesFromInput_blank (adv : EntitiesDict) (text : StrL)
    (h : ∀ c ∈ text, pyIsSpaceChar c = true) :
    extractEntitiesFromInput adv text = [] := by
  unfold extractEntitiesFromInput
  rw [method1Names_nil]
  unfold capWords quotedTerms acronymMatches
  rw [capScan_nil_of_space text h _ _, quotedScan_nil_of_space text h _,
    acrScan_nil_of_space text h _ _]
  rfl

/-! ### Claim C1: graph failure degrades to an empty context -/

/-- C1: for every input and session, if the graph query (or any step after
entity extraction) raises, `get_conversation_context` does not raise: it
returns a context whose `related_entities` and `related_thoughts` lists are
empty and whose `context_summary` is the non-empty diagnostic string
`'Context extraction failed'`. -/
theorem getConversationContext_graph_failure {E : Type} (adv : EntitiesDict)
    (text : StrL) (e : E)
    (h : extractEntitiesFromInput adv text ≠ []) :
    (getConversationContext adv text (Except.error e)).ctx.related_entities = []
    ∧ (getConversationContext adv text (Except.error e)).ctx.related_thoughts = []
    ∧ (getConversationContext adv text (Except.error e)).ctx.context_summary
        = "Context extraction failed".data
    ∧ (getConversationContext adv text (Except.error e)).ctx.context_summary ≠ [] := by
  obtain ⟨a, l, hx⟩ : ∃ a l, extractEntitiesFromInput adv text = a :: l := by
    cases hx : extractEntitiesFromInput adv text with
    | nil => exact absurd hx h
    | cons a l => exact ⟨a, l, rfl⟩
  have hg : getConversationContext adv text (Except.error e) =
      ⟨{ related_entities := [], related_thoughts := [], similar_sessions := []
         context_summary := "Context extraction failed".data, extracted_entities := [] },
       true⟩ := by
    unfold getConversationContext
    rw [hx]
    rfl
  rw [hg]
  refine ⟨rfl, rfl, rfl, ?_⟩
  decide

/-- Witness for C1 at a concrete input: the text carries one double-quoted
mention, the extractor result is empty, and the graph query fails. -/
theorem getConversationContext_graph_failure_witness :
    extractEntitiesFromInput ⟨[], [], [], [], [], []⟩ ("\"hello\" x".data) ≠ []
    ∧ (getConversationContext ⟨[], [], [], [], [], []⟩ ("\"hello\" x".data)
        (Except.error ())).ctx.related_thoughts = []
    ∧ (getConversationContext ⟨[], [], [], [], [], []⟩ ("\"hello\" x".data)
        (Except.error ())).ctx.context_summary ≠ [] :=
  ⟨by decide,
   (getConversationContext_graph_failure ⟨[], [], [], [], [], []⟩ ("\"hello\" x".data)
      () (by decide)).2.1,
   (getConversationContext_graph_failure ⟨[], [], [], [], [], []⟩ ("\"hello\" x".data)
      () (by decide)).2.2.2⟩

/-! ### Claim C8: empty or whitespace-only input -/

/-- C8 counterexample: on empty input the early return carries the empty
string as `context_summary`, not the canonical sentence
`'No relevant context found from previous conversations.'` the claim names. -/
theorem emptyInput_summary_not_canonical :
    (getConversationContext ⟨[], [], [], [], [], []⟩ []
        ((Except.ok ⟨[], [], []⟩) : Except Unit ContextData)).ctx.context_summary = []
    ∧ ("No relevant context found from previous conversations.".data : StrL) ≠ [] := by
  exact ⟨rfl, by decide⟩

/-- C8 as amended: for empty or whitespace-only input (and in general whenever
no entity mentions are extracted) `get_conversation_context` issues no graph
query and returns the early-exit context with empty lists and the empty
string as `context_summary` (not the canonical no-context sentence, which is
produced only on the query path). -/
theorem emptyInput_returns_empty_context {E : Type} (adv : EntitiesDict)
    (text : StrL) (graph : Except E ContextData)
    (h : (∀ c ∈ text, pyIsSpaceChar c = true) ∨ extractEntitiesFromInput adv text = []) :
    getConversationContext adv text graph =
      ⟨{ related_entities := [], related_thoughts := [], similar_sessions := []
         context_summary := [], extracted_entities := [] }, false⟩ := by
  have hempty : extractEntitiesFromInput adv text = [] := by
    rcases h with h | h
    · exact extractEntitiesFromInput_blank adv text h
    · exact h
  unfold getConversationContext
  rw [hempty]
  rfl

/-- Witness for C8 at a concrete whitespace-only input. -/
theorem emptyInput_returns_empty_context_witness :
    ((∀ c ∈ ("  \t ".data : StrL), pyIsSpaceChar c = true)
      ∨ extractEntitiesFromInput ⟨[], [], [], [], [], []⟩ ("  \t ".data) = [])
    ∧ getConversationContext ⟨[], [], [], [], [], []⟩ ("  \t ".data)
        ((Except.ok ⟨[], [], []⟩) : Except Unit ContextData) =
      ⟨{ related_entities := [], related_thoughts := [], similar_sessions := []
         context_summary := [], extracted_entities := [] }, false⟩ :=
  ⟨Or.inl (by decide),
   emptyInput_returns_empty_context ⟨[], [], [], [], [], []⟩ ("  \t ".data)
     ((Except.ok ⟨[], [], []⟩) : Except Unit ContextData) (Or.inl (by decide))⟩

/-! ### Claim C3: confidence scoring formula and clamping -/

theorem score_ite_add {c : Prop} [Decidable c] (x a : ℚ) :
    (if c then x + a else x) = x + (if c then a else 0) := by
  split_ifs <;> simp

theorem score_ite_sub {c : Prop} [Decidable c] (x a : ℚ) :
    (if c then x - a else x) = x - (if c then a else 0) := by
  split_ifs <;> simp

/-- The sequential length adjustment (an `elif` in the source) equals the two
independent subtractions of the specification, because the two length
conditions are mutually exclusive. -/
theorem length_adjust_eq (n : Nat) :
    (if n < 3 then (1:ℚ)/2 - 1/5 else 1/2 - (if n > 20 then (1:ℚ)/10 else 0))
      = 1/2 - (if n < 3 then (1:ℚ)/5 else 0) - (if n > 20 then (1:ℚ)/10 else 0) := by
  split_ifs with h1 h2
  · exfalso; omega
  · ring
  · ring
  · ring

/-- C3: for every non-empty entity text, context and category, the confidence
score equals the claimed sum of independent adjustments (base 0.5, length
penalties, capitalization bonuses, context keyword bonuses, stop-word and
token-count penalties) clamped to `[0, 1]` last; in particular the returned
confidence lies in `[0, 1]`. -/
theorem calcConfidenceScore_formula (entity context : StrL) (category : Category)
    (h : entity ≠ []) :
    calcConfidenceScore entity context category
      = clamp01 (confidenceRawScore entity context category)
    ∧ 0 ≤ calcConfidenceScore entity context category
    ∧ calcConfidenceScore entity context category ≤ 1 := by
  have heq : calcConfidenceScore entity context category
      = clamp01 (confidenceRawScore entity context category) := by
    unfold calcConfidenceScore confidenceRawScore clamp01
    simp only [score_ite_add, score_ite_sub, length_adjust_eq]
  refine ⟨heq, ?_, ?_⟩
  · rw [heq]; exact clamp01_nonneg _
  · rw [heq]; exact clamp01_le_one _

/-- Witness for C3 at a concrete input: entity `Paris`, context `in Paris
today`, category locations; the score evaluates to 0.7. -/
theorem calcConfidenceScore_formula_witness :
    ("Paris".data : StrL) ≠ []
    ∧ calcConfidenceScore "Paris".data "in Paris today".data Category.locations
        = clamp01 (confidenceRawScore "Paris".data "in Paris today".data Category.locations)
    ∧ calcConfidenceScore "Paris".data "in Paris today".data Category.locations = 7/10 := by
  have heval : calcConfidenceScore "Paris".data "in Paris today".data Category.locations
      = max 0 (min 1 ((1:ℚ)/2 + 1/10 + 1/10)) := rfl
  refine ⟨by decide, ?_, ?_⟩
  · exact (calcConfidenceScore_formula "Paris".data "in Paris today".data
      Category.locations (by decide)).1
  · rw [heval]; norm_num

/-! ### Claim C9: definition length filter -/

theorem defnStep_keeps (defs : List (StrL × DefEntry)) (m : StrL × StrL × StrL)
    (hinv : ∀ kv ∈ defs, 3 ≤ kv.1.length ∧ 11 ≤ kv.2.definition.length) :
    ∀ kv ∈ defnStep defs m, 3 ≤ kv.1.length ∧ 11 ≤ kv.2.definition.length := by
  intro kv hkv
  unfold defnStep at hkv
  by_cases hcond : (defnLengthOK (pyStrip m.1) (pyStrip m.2.1)
      && !isNoise (pyStrip m.1)) = true
  · rw [if_pos hcond] at hkv
    have hlen : 3 ≤ (pyStrip m.1).length ∧ 11 ≤ (pyStrip m.2.1).length := by
      have h1 := (Bool.and_eq_true _ _).mp hcond |>.1
      simp only [defnLengthOK, Bool.and_eq_true, decide_eq_true_eq] at h1
      omega
    by_cases hconf : (7:ℚ)/10 ≤ calcDefinitionConfidence (pyStrip m.1) (pyStrip m.2.1)
    · rw [if_pos hconf] at hkv
      unfold dictInsert at hkv
      by_cases hmem : (defs.any fun p => p.1 = pyStrip m.1) = true
      · rw [if_pos hmem] at hkv
        rcases List.mem_map.mp hkv with ⟨p, hp, hpe⟩
        by_cases hp1 : p.1 = pyStrip m.1
        · rw [if_pos hp1] at hpe
          rw [← hpe]
          exact ⟨hlen.1, hlen.2⟩
        · rw [if_neg hp1] at hpe
          rw [← hpe]
          exact hinv p hp
      · rw [if_neg hmem] at hkv
        rcases List.mem_append.mp hkv with hin | hnew
        · exact hinv kv hin
        · rw [List.mem_singleton.mp hnew]
          exact ⟨hlen.1, hlen.2⟩
    · rw [if_neg hconf] at hkv
      exact hinv kv hkv
  · rw [if_neg hcond] at hkv
    exact hinv kv hkv

theorem extractDefinitions_invariant (pairs : List (StrL × StrL × StrL)) :
    ∀ kv ∈ extractDefinitionsModel pairs,
      3 ≤ kv.1.length ∧ 11 ≤ kv.2.definition.length := by
  unfold extractDefinitionsModel
  suffices h : ∀ defs, (∀ kv ∈ defs, 3 ≤ kv.1.length ∧ 11 ≤ kv.2.definition.length)
      → ∀ kv ∈ pairs.foldl defnStep defs, 3 ≤ kv.1.length ∧ 11 ≤ kv.2.definition.length by
    exact h [] (by simp)
  induction pairs with
  | nil => intro defs hinv kv hkv; exact hinv kv (by simpa using hkv)
  | cons m rest ih =>
    intro defs hinv
    simp only [List.foldl_cons]
    exact ih (defnStep defs m) (defnStep_keeps defs m hinv)

/-- C9 counterexample: a matched pair whose term has 3 characters and whose
definition has exactly 10 characters is discarded by the length gate (which
requires strictly more than 10), although it is not noise and clears the
confidence threshold; the claim says such a pair survives the length filter. -/
theorem definition_length_ten_discarded :
    ("means that".data : StrL).length = 10
    ∧ isNoise ("abc".data) = false
    ∧ 7/10 ≤ calcDefinitionConfidence "abc".data "means that".data
    ∧ defnLengthOK ("abc".data) ("means that".data) = false
    ∧ extractDefinitionsModel [("abc".data, "means that".data,
        "abc is means that".data)] = [] := by
  refine ⟨by decide, by decide, ?_, by decide, rfl⟩
  have heval : calcDefinitionConfidence "abc".data "means that".data
      = max 0 (min 1 ((3:ℚ)/5 + 1/10 + 1/10)) := rfl
  rw [heval]
  norm_num

/-- C9 as amended: a matched pair is discarded by the length filter exactly
when the stripped term is shorter than 3 characters or the stripped definition
is shorter than 11 characters (the gate is strict `> 10`); a pair with term of
at least 3 characters and definition of at least 11 characters survives the
length filter subject only to the separate noise and confidence checks, and
every surviving entry satisfies these bounds. -/
theorem definition_length_filter (t d g : StrL)
    (hlen : defnLengthOK (pyStrip t) (pyStrip d) = true)
    (hn : isNoise (pyStrip t) = false)
    (hc : 7/10 ≤ calcDefinitionConfidence (pyStrip t) (pyStrip d)) :
    (∀ t2 d2 : StrL, defnLengthOK t2 d2 = true ↔ 3 ≤ t2.length ∧ 11 ≤ d2.length)
    ∧ extractDefinitionsModel [(t, d, g)]
        = [(pyStrip t, ⟨pyStrip d, calcDefinitionConfidence (pyStrip t) (pyStrip d), g⟩)]
    ∧ ∀ pairs, ∀ kv ∈ extractDefinitionsModel pairs,
        3 ≤ kv.1.length ∧ 11 ≤ kv.2.definition.length := by
  refine ⟨?_, ?_, fun pairs => extractDefinitions_invariant pairs⟩
  · intro t2 d2
    simp only [defnLengthOK, Bool.and_eq_true, decide_eq_true_eq]
    omega
  · have hcnd : (defnLengthOK (pyStrip t) (pyStrip d) && !isNoise (pyStrip t)) = true := by
      rw [hlen, hn]; rfl
    unfold extractDefinitionsModel
    simp [defnStep, dictInsert, hcnd, eq_true hc]

/-- Witness for C9 at a concrete pair: term `abc`, definition `is a type of`
(12 characters), which passes the length gate, the noise filter, and the 0.7
threshold, and survives as a stored definition. -/
theorem definition_length_filter_witness :
    (defnLengthOK (pyStrip "abc".data) (pyStrip "is a type of".data) = true
      ∧ isNoise (pyStrip "abc".data) = false
      ∧ 7/10 ≤ calcDefinitionConfidence (pyStrip "abc".data) (pyStrip "is a type of".data))
    ∧ extractDefinitionsModel [("abc".data, "is a type of".data,
        "abc means is a type of".data)]
      = [(pyStrip "abc".data,
          ⟨pyStrip "is a type of".data,
           calcDefinitionConfidence (pyStrip "abc".data) (pyStrip "is a type of".data),
           "abc means is a type of".data⟩)] := by
  have hc : (7:ℚ)/10 ≤ calcDefinitionConfidence (pyStrip "abc".data)
      (pyStrip "is a type of".data) := by
    have heval : calcDefinitionConfidence (pyStrip "abc".data) (pyStrip "is a type of".data)
        = max 0 (min 1 ((3:ℚ)/5 + 1/10 + 1/10)) := rfl
    rw [heval]; norm_num
  exact ⟨⟨by decide, by decide, hc⟩,
    (definition_length_filter "abc".data "is a type of".data
      "abc means is a type of".data (by decide) (by decide) hc).2.1⟩

/-! ### Claim C4: merge tiers, purity, order dependence -/

/-- Case-insensitive substring relation in either direction, as the substring
tier tests it. -/
def substrRelated (e cand : StrL) : Prop :=
  containsSub (pyLower cand) (pyLower e) = true
  ∨ containsSub (pyLower e) (pyLower cand) = true

instance : ∀ e cand, Decidable (substrRelated e cand) := fun e cand => by
  unfold substrRelated
  infer_instance

theorem merge_guard_false {existing : List StrL} {cand : StrL}
    (hne : existing ≠ []) (hc : cand ≠ []) :
    (existing.isEmpty || cand.isEmpty) = false := by
  cases existing with
  | nil => exact absurd rfl hne
  | cons a l =>
    cases cand with
    | nil => exact absurd rfl hc
    | cons b m => rfl

/-- Characterization of when the no-backend merge finds anything: both inputs
non-empty and some existing name is an exact or substring match. -/
theorem mergeSimilarEntities_isSome_char (existing : List StrL) (cand : StrL) :
    (mergeSimilarEntities existing cand).isSome = true
      ↔ existing ≠ [] ∧ cand ≠ []
        ∧ ∃ e ∈ existing, (pyLower e = pyLower cand ∨ substrRelated e cand) := by
  by_cases hne : existing = []
  · subst hne
    simp [mergeSimilarEntities]
  · by_cases hc : cand = []
    · subst hc
      unfold mergeSimilarEntities
      cases existing with
      | nil => simp
      | cons a l => simp
    · unfold mergeSimilarEntities
      rw [merge_guard_false hne hc]
      simp only [Bool.false_eq_true, if_false]
      cases hf1 : exactTier existing (pyLower cand) with
      | some e =>
        have hmem := List.mem_of_find?_eq_some hf1
        have hp : pyLower e = pyLower cand := by
          have := List.find?_some hf1
          simpa using this
        simp only [Option.isSome_some, true_iff]
        exact ⟨hne, hc, e, hmem, Or.inl hp⟩
      | none =>
        cases hf2 : substrTier existing (pyLower cand) with
        | some e =>
          have hmem := List.mem_of_find?_eq_some hf2
          have hp : substrRelated e cand := by
            have := List.find?_some hf2
            unfold substrRelated
            simpa [Bool.or_eq_true] using this
          constructor
          · intro _
            exact ⟨hne, hc, e, hmem, Or.inr hp⟩
          · intro _
            by_cases hlen : cand.length > e.length <;> simp [hlen]
        | none =>
          have hnone : ¬ ∃ e ∈ existing,
              (pyLower e = pyLower cand ∨ substrRelated e cand) := by
            rintro ⟨e, hmem, hor⟩
            rcases hor with hp | hp
            · have := List.find?_eq_none.mp hf1 e hmem
              simp [hp] at this
            · have := List.find?_eq_none.mp hf2 e hmem
              unfold substrRelated at hp
              rcases hp with hp | hp <;> simp [hp] at this
          simp [hnone]

/-- C4 counterexample: the exact tier returns the first matching list element,
so the returned string depends on the order of `existing_entities` (two
permuted lists give different results); moreover an empty candidate returns
none although the empty string is a substring of every existing name, so the
substring tier as claimed would apply. -/
theorem mergeSimilarEntities_order_dependent :
    mergeSimilarEntities ["ai".data, "AI".data] "Ai".data = some ("ai".data)
    ∧ mergeSimilarEntities ["AI".data, "ai".data] "Ai".data = some ("AI".data)
    ∧ List.Perm ["ai".data, "AI".data] ["AI".data, "ai".data]
    ∧ mergeSimilarEntities ["ax".data] [] = none
    ∧ containsSub (pyLower []) (pyLower "ax".data) = true :=
  ⟨by decide, by decide, List.Perm.swap "AI".data "ai".data [],
   by decide, by decide⟩

/-- C4 as amended: for a non-empty candidate, the exact case-insensitive tier
wins first (returning an existing name equal to the candidate up to case),
then the substring tier returns the longer of the candidate and a
substring-related existing name; whether a match is found is pure and
order-independent for these two tiers, but the specific string returned may
depend on list order when several existing names match; with no semantic
backend and neither tier matching, the result is none without error. -/
theorem mergeSimilarEntities_tiers (existing : List StrL) (cand : StrL)
    (hc : cand ≠ []) :
    ((∃ e ∈ existing, pyLower e = pyLower cand) →
        ∃ e ∈ existing, pyLower e = pyLower cand
          ∧ mergeSimilarEntities existing cand = some e)
    ∧ ((¬ ∃ e ∈ existing, pyLower e = pyLower cand) →
       (∃ e ∈ existing, substrRelated e cand) →
        ∃ e ∈ existing, substrRelated e cand
          ∧ mergeSimilarEntities existing cand
              = some (if cand.length > e.length then cand else e))
    ∧ (∀ existing2, existing.Perm existing2 →
        ((mergeSimilarEntities existing cand).isSome
          = (mergeSimilarEntities existing2 cand).isSome))
    ∧ ((¬ ∃ e ∈ existing, pyLower e = pyLower cand)
        → (¬ ∃ e ∈ existing, substrRelated e cand)
        → mergeSimilarEntities existing cand = none) := by
  refine ⟨?_, ?_, ?_, ?_⟩
  · intro hex
    have hne : existing ≠ [] := by
      rcases hex with ⟨e, he, _⟩
      exact List.ne_nil_of_mem he
    have hsome : (exactTier existing (pyLower cand)).isSome := by
      unfold exactTier
      rw [List.find?_isSome]
      rcases hex with ⟨e, he, hp⟩
      exact ⟨e, he, by simp [hp]⟩
    obtain ⟨e1, he1⟩ := Option.isSome_iff_exists.mp hsome
    have he1mem := List.mem_of_find?_eq_some he1
    have he1p : pyLower e1 = pyLower cand := by
      have := List.find?_some he1
      simpa using this
    refine ⟨e1, he1mem, he1p, ?_⟩
    unfold mergeSimilarEntities
    rw [merge_guard_false hne hc]
    simp only [Bool.false_eq_true, if_false]
    rw [he1]
  · intro hnex hsub
    have hne : existing ≠ [] := by
      rcases hsub with ⟨e, he, _⟩
      exact List.ne_nil_of_mem he
    have hf1 : exactTier existing (pyLower cand) = none := by
      unfold exactTier
      rw [List.find?_eq_none]
      intro x hx
      simp only [decide_eq_true_eq]
      intro hpx
      exact hnex ⟨x, hx, hpx⟩
    have hsome : (substrTier existing (pyLower cand)).isSome := by
      unfold substrTier
      rw [List.find?_isSome]
      rcases hsub with ⟨e, he, hp⟩
      unfold substrRelated at hp
      refine ⟨e, he, ?_⟩
      rcases hp with hp | hp <;> simp [hp]
    obtain ⟨e1, he1⟩ := Option.isSome_iff_exists.mp hsome
    have he1mem := List.mem_of_find?_eq_some he1
    have he1p : substrRelated e1 cand := by
      have := List.find?_some he1
      unfold substrRelated
      simpa [Bool.or_eq_true] using this
    refine ⟨e1, he1mem, he1p, ?_⟩
    unfold mergeSimilarEntities
    rw [merge_guard_false hne hc]
    simp only [Bool.false_eq_true, if_false]
    rw [hf1, he1]
    by_cases hl : cand.length > e1.length <;> simp [hl]
  · intro existing2 hperm
    have h1 := mergeSimilarEntities_isSome_char existing cand
    have h2 := mergeSimilarEntities_isSome_char existing2 cand
    have hn : existing ≠ [] ↔ existing2 ≠ [] := by
      constructor
      · intro h hnil
        exact h (List.Perm.eq_nil (hnil ▸ hperm))
      · intro h hnil
        exact h (List.Perm.eq_nil (hnil ▸ hperm.symm))
    by_cases hs : (mergeSimilarEntities existing cand).isSome = true
    · rcases h1.mp hs with ⟨ha, hb, e, he, hp⟩
      have := h2.mpr ⟨hn.mp ha, hb, e, hperm.mem_iff.mp he, hp⟩
      rw [hs, this]
    · have hs2 : ¬ (mergeSimilarEntities existing2 cand).isSome = true := by
        intro habs
        rcases h2.mp habs with ⟨ha, hb, e, he, hp⟩
        exact hs (h1.mpr ⟨hn.mpr ha, hb, e, hperm.mem_iff.mpr he, hp⟩)
      rw [Bool.not_eq_true] at hs hs2
      rw [hs, hs2]
  · intro hnex hnsub
    by_cases hne : existing = []
    · subst hne
      rfl
    · have hf1 : exactTier existing (pyLower cand) = none := by
        unfold exactTier
        rw [List.find?_eq_none]
        intro x hx
        simp only [decide_eq_true_eq]
        intro hpx
        exact hnex ⟨x, hx, hpx⟩
      have hf2 : substrTier existing (pyLower cand) = none := by
        unfold substrTier
        rw [List.find?_eq_none]
        intro x hx hcon
        apply hnsub
        refine ⟨x, hx, ?_⟩
        unfold substrRelated
        exact (Bool.or_eq_true _ _).mp hcon
      unfold mergeSimilarEntities
      rw [merge_guard_false hne hc]
      simp only [Bool.false_eq_true, if_false]
      rw [hf1, hf2]

/-- Witness for C4 at concrete inputs: candidate `Anne` against existing
`[Ann]` exercises the substring tier and returns the longer string. -/
theorem mergeSimilarEntities_tiers_witness :
    ("Anne".data : StrL) ≠ []
    ∧ mergeSimilarEntities ["Ann".data] "Anne".data = some ("Anne".data)
    ∧ ((¬ ∃ e ∈ (["Ann".data] : List StrL), pyLower e = pyLower "Anne".data)
       → (∃ e ∈ (["Ann".data] : List StrL), substrRelated e "Anne".data)
       → ∃ e ∈ (["Ann".data] : List StrL), substrRelated e "Anne".data
           ∧ mergeSimilarEntities ["Ann".data] "Anne".data
               = some (if ("Anne".data : StrL).length > e.length then "Anne".data else e)) :=
  ⟨by decide, by decide,
   (mergeSimilarEntities_tiers ["Ann".data] "Anne".data (by decide)).2.1⟩

/-! ### Claim C5: `AI` and `Artificial Intelligence` in one category -/

/-- Raw candidate `AI` with a confidence reachable for the concepts category
(0.5 - 0.2 length + 0.1 capitalization + 0.2 + 0.1 context keywords). -/
def aiEnt : CatEntity := ⟨"AI".data, 7/10, "AI theory learning".data⟩

/-- Raw candidate `Artificial Intelligence` (0.5 - 0.1 length + 0.1 + 0.1
capitalization + 0.2 + 0.1 context keywords). -/
def artIntEnt : CatEntity :=
  ⟨"Artificial Intelligence".data, 9/10, "Artificial Intelligence theory learning".data⟩

/-- Evaluation of the dedup pass on the two candidates: no merge fires (the
substring tier does not relate them), and the confidence sort swaps them. -/
theorem cleanCategory_AI_eval :
    cleanCategoryList [aiEnt, artIntEnt] = [artIntEnt, aiEnt] := by
  have hfold : (List.foldl cleanStep ([], []) [aiEnt, artIntEnt]).1
      = [aiEnt, artIntEnt] := rfl
  have hger : ¬ confGE aiEnt artIntEnt := by
    simp only [confGE, aiEnt, artIntEnt]
    norm_num
  unfold cleanCategoryList
  rw [hfold]
  simp [List.insertionSort, List.orderedInsert, hger]

/-- C5 counterexample: the deduplication step does not merge `AI` and
`Artificial Intelligence` into a single entry with canonical name
`Artificial Intelligence`. -/
theorem cleanCategory_AI_not_merged :
    (cleanCategoryList [aiEnt, artIntEnt]).map (fun e => e.name)
      ≠ ["Artificial Intelligence".data] := by
  rw [cleanCategory_AI_eval]
  decide

/-- C5 as amended: when raw candidates `AI` and `Artificial Intelligence` are
both present in one category (no semantic backend), deduplication keeps them
as two separate entries ordered by confidence descending, because the
lowercased string `ai` is not a contiguous substring of
`artificial intelligence` (nor conversely), so the substring merge never
fires for this pair. -/
theorem cleanCategory_AI_separate :
    cleanCategoryList [aiEnt, artIntEnt] = [artIntEnt, aiEnt]
    ∧ (cleanCategoryList [aiEnt, artIntEnt]).map (fun e => e.name)
        = ["Artificial Intelligence".data, "AI".data]
    ∧ containsSub (pyLower "AI".data) (pyLower "Artificial Intelligence".data) = false
    ∧ containsSub (pyLower "Artificial Intelligence".data) (pyLower "AI".data) = false
    ∧ mergeSimilarEntities ["AI".data] "Artificial Intelligence".data = none :=
  ⟨cleanCategory_AI_eval, by rw [cleanCategory_AI_eval]; rfl,
   by decide, by decide, by decide⟩

/-! ### Claim C2: overall confidence is the mean; total is the count -/

theorem confAccum_spec (l : List CatEntity) (acc : Nat × ℚ) :
    confAccum acc l
      = (acc.1 + l.length, acc.2 + (l.map fun e => e.confidence).sum) := by
  induction l generalizing acc with
  | nil => simp [confAccum]
  | cons e rest ih =>
    unfold confAccum at ih ⊢
    simp only [List.foldl_cons, List.map_cons, List.sum_cons, List.length_cons]
    rw [ih]
    refine Prod.ext ?_ ?_
    · simp; omega
    · simp; ring

theorem defAccum_spec (ds : List (StrL × DefEntry)) (acc : Nat × ℚ) :
    ds.foldl (fun a td => (a.1 + 1, a.2 + td.2.confidence)) acc
      = (acc.1 + ds.length, acc.2 + (ds.map fun td => td.2.confidence).sum) := by
  induction ds generalizing acc with
  | nil => simp
  | cons e rest ih =>
    simp only [List.foldl_cons, List.map_cons, List.sum_cons, List.length_cons]
    rw [ih]
    refine Prod.ext ?_ ?_
    · simp; omega
    · simp; ring

theorem countTotal_eq (d : EntitiesDict) :
    countTotalEntities d = (allConfidences d).length := by
  unfold countTotalEntities allConfidences
  simp [List.length_append]
  omega

theorem calcOverall_eq (d : EntitiesDict) :
    calcOverallConfidence d
      = if allConfidences d = [] then 0
        else (allConfidences d).sum / ((allConfidences d).length : ℚ) := by
  have hlen : (allConfidences d).length
      = d.people.length + d.concepts.length + d.tools.length + d.locations.length
        + d.temporal_events.length + d.definitions.length := by
    unfold allConfidences
    simp [List.length_append]
    omega
  have hsum : (allConfidences d).sum
      = (d.people.map fun e => e.confidence).sum
        + (d.concepts.map fun e => e.confidence).sum
        + (d.tools.map fun e => e.confidence).sum
        + (d.locations.map fun e => e.confidence).sum
        + (d.temporal_events.map fun e => e.confidence).sum
        + (d.definitions.map fun td => td.2.confidence).sum := by
    unfold allConfidences
    simp [List.sum_append]
    ring
  unfold calcOverallConfidence
  simp only [confAccum_spec, defAccum_spec, zero_add]
  rw [← hlen, ← hsum]
  by_cases h : allConfidences d = []
  · rw [if_pos h, h]
    simp
  · rw [if_neg h]
    have hpos : (allConfidences d).length > 0 := List.length_pos.mpr h
    rw [if_pos hpos]

/-- C2: for every extraction result, `overall_confidence` equals the
arithmetic mean of the confidences of all surviving entities across the five
categories together with all surviving definitions (0 when there are none),
and `total_entities` equals their number, which is the sum of the five
category list lengths plus the definition count. -/
theorem extraction_overall_confidence_mean (raw : EntitiesDict) :
    ((extractEntitiesModel raw).overall_confidence
      = if allConfidences (extractEntitiesModel raw).entities = [] then 0
        else (allConfidences (extractEntitiesModel raw).entities).sum
            / ((allConfidences (extractEntitiesModel raw).entities).length : ℚ))
    ∧ (extractEntitiesModel raw).total_entities
        = (allConfidences (extractEntitiesModel raw).entities).length
    ∧ (extractEntitiesModel raw).total_entities
        = (extractEntitiesModel raw).entities.people.length
          + (extractEntitiesModel raw).entities.concepts.length
          + (extractEntitiesModel raw).entities.tools.length
          + (extractEntitiesModel raw).entities.locations.length
          + (extractEntitiesModel raw).entities.temporal_events.length
          + (extractEntitiesModel raw).entities.definitions.length := by
  have h1 : (extractEntitiesModel raw).overall_confidence
      = calcOverallConfidence (cleanAndDeduplicate raw) := rfl
  have h2 : (extractEntitiesModel raw).entities = cleanAndDeduplicate raw := rfl
  have h3 : (extractEntitiesModel raw).total_entities
      = countTotalEntities (cleanAndDeduplicate raw) := rfl
  rw [h1, h2, h3]
  refine ⟨calcOverall_eq _, countTotal_eq _, ?_⟩
  unfold countTotalEntities
  omega

/-! ### Claim C6: the mention list of `_extract_entities_from_input` -/

theorem cleanMentionsLoop_spec (l : List StrL) (seen : List StrL) :
    cleanMentionsLoop l seen
      = dedupFirstLower ((l.map pyStrip).filter
          fun s => decide (2 < s.length ∧ pyLower s ∉ seen)) := by
  induction l generalizing seen with
  | nil => simp [cleanMentionsLoop, dedupFirstLower]
  | cons e rest ih =>
    simp only [cleanMentionsLoop, List.map_cons, List.filter_cons]
    by_cases h1 : 2 < (pyStrip e).length
    · by_cases h2 : pyLower (pyStrip e) ∉ seen
      · have hcond : (pyLower (pyStrip e)).length > 2 ∧ pyLower (pyStrip e) ∉ seen := by
          rw [pyLower_length]
          exact ⟨h1, h2⟩
        rw [if_pos hcond]
        have hc2 : decide (2 < (pyStrip e).length ∧ pyLower (pyStrip e) ∉ seen) = true := by
          simp [h1, h2]
        rw [hc2]
        simp only [if_true, dedupFirstLower]
        rw [ih (pyLower (pyStrip e) :: seen), List.filter_filter]
        congr 1
        refine congrArg dedupFirstLower ?_
        apply List.filter_congr
        intro s hs
        by_cases g1 : 2 < s.length <;>
          by_cases g2 : pyLower s ∈ seen <;>
          by_cases g3 : pyLower s = pyLower (pyStrip e) <;>
          simp [g1, g2, g3, List.mem_cons]
      · have hcond : ¬ ((pyLower (pyStrip e)).length > 2 ∧ pyLower (pyStrip e) ∉ seen) := by
          rw [pyLower_length]
          intro hab
          exact h2 hab.2
        rw [if_neg hcond]
        have hc2 : decide (2 < (pyStrip e).length ∧ pyLower (pyStrip e) ∉ seen) = false := by
          simp only [decide_eq_false_iff_not]
          intro hab
          exact h2 hab.2
        rw [hc2]
        simp only [Bool.false_eq_true, if_false]
        exact ih seen
    · have hcond : ¬ ((pyLower (pyStrip e)).length > 2 ∧ pyLower (pyStrip e) ∉ seen) := by
        rw [pyLower_length]
        intro hab
        exact h1 hab.1
      rw [if_neg hcond]
      have hc2 : decide (2 < (pyStrip e).length ∧ pyLower (pyStrip e) ∉ seen) = false := by
        simp only [decide_eq_false_iff_not]
        intro hab
        exact h1 hab.1
      rw [hc2]
      simp only [Bool.false_eq_true, if_false]
      exact ih seen

/-- C6 as amended: for every input text (and every advanced-extractor result),
the mention list is exactly the pipeline over the union of capitalized
sequences, double-quoted substrings and the acronym vocabulary: each raw
mention stripped, entries of 2 or fewer characters dropped, deduplicated
case-insensitively keeping the first occurrence, capped at 10.  The advanced
extractor's results never contribute (the flattening comprehension reads the
absent key `'text'` and the resulting error is caught), and single-quoted
substrings are not extracted. -/
theorem extractEntitiesFromInput_characterization (adv : EntitiesDict) (text : StrL) :
    extractEntitiesFromInput adv text
      = mentionPipelineSpec (capWords text ++ quotedTerms text ++ acronymMatches text) := by
  unfold extractEntitiesFromInput mentionPipelineSpec
  rw [method1Names_nil]
  simp only [List.nil_append]
  rw [cleanMentionsLoop_spec]
  congr 1
  refine congrArg dedupFirstLower ?_
  apply List.filter_congr
  intro s hs
  simp

/-- The extractor result reached on the counterexample text
`machine learning theory 'foo bar'`: the concepts pattern
`([A-Z][a-z]+(?:\s+[A-Z][a-z]+)*)\s+(?:theory|...)` matches case-insensitively
with confidence 0.8 (base 0.5 + 0.2 for `theory` + 0.1 for `learning` in the
context window), and no other category or definition pattern matches. -/
def advCx : EntitiesDict :=
  ⟨[], [⟨"machine learning".data, 4/5, "machine learning theory 'foo bar'".data⟩],
   [], [], [], []⟩

/-- C6 counterexample: on the text `machine learning theory 'foo bar'` the
code returns no mentions at all, while the claimed union would contain both
the extractor name `machine learning` (method 1 contributes nothing because
the comprehension reads `entity['text']` where the records carry `'name'`)
and the single-quoted substring `foo bar` (the code extracts only
double-quoted substrings). -/
theorem extractEntitiesFromInput_quotes_counterexample :
    extractEntitiesFromInput advCx ("machine learning theory 'foo bar'".data) = []
    ∧ claimedMentionList advCx ("machine learning theory 'foo bar'".data)
        = ["machine learning".data, "foo bar".data]
    ∧ extractEntitiesFromInput advCx ("machine learning theory 'foo bar'".data)
        ≠ claimedMentionList advCx ("machine learning theory 'foo bar'".data) := by
  have h1 : extractEntitiesFromInput advCx ("machine learning theory 'foo bar'".data)
      = [] := by decide
  have harg : (((advCx.people ++ advCx.concepts ++ advCx.tools ++ advCx.locations
        ++ advCx.temporal_events).map (fun e => e.name)
      ++ capWords ("machine learning theory 'foo bar'".data)
      ++ quotedTerms ("machine learning theory 'foo bar'".data)
      ++ singleQuotedTerms ("machine learning theory 'foo bar'".data)
      ++ acronymMatches ("machine learning theory 'foo bar'".data)).map pyStrip).filter
        (fun s => decide (2 < s.length))
      = ["machine learning".data, "foo bar".data] := by decide
  have hfil : List.filter (fun y => !decide (pyLower y = pyLower ("machine learning".data)))
      [("foo bar".data)] = [("foo bar".data)] := by decide
  have h2 : claimedMentionList advCx ("machine learning theory 'foo bar'".data)
      = ["machine learning".data, "foo bar".data] := by
    unfold claimedMentionList mentionPipelineSpec
    rw [harg]
    simp only [dedupFirstLower, hfil, List.filter_nil]
    rfl
  refine ⟨h1, h2, ?_⟩
  rw [h1, h2]
  decide

/-! ### Claim C7: thought relevance formula and ranking -/

theorem containsSub_nil {n : StrL} (h : n ≠ []) : containsSub n [] = false := by
  cases n with
  | nil => exact absurd rfl h
  | cons a as => rfl

theorem isEmpty_or_false {α β : Type} {l1 : List α} {l2 : List β}
    (h1 : l1 ≠ []) (h2 : l2 ≠ []) : (l1.isEmpty || l2.isEmpty) = false := by
  cases l1 with
  | nil => exact absurd rfl h1
  | cons a as =>
    cases l2 with
    | nil => exact absurd rfl h2
    | cons b bs => rfl

/-- C7 counterexample: with empty thought content and the non-empty list of
mentioned entities `[""]`, the code's early return yields relevance 0 while
the claimed formula yields 1 (the empty string is a substring of every
string, including the empty content). -/
theorem thoughtRelevance_empty_edge :
    calcThoughtRelevance [] [[]] = 0
    ∧ relevanceFormulaSpec [] [[]] = 1
    ∧ calcThoughtRelevance [] [[]] ≠ relevanceFormulaSpec [] [[]] := by
  have h1 : calcThoughtRelevance [] [[]] = 0 := rfl
  have h2 : relevanceFormulaSpec [] [[]] = 1 := by
    have hc1 : List.countP (fun e => containsSub (pyLower e) (pyLower ([] : StrL)))
        [([] : StrL)] = 1 := by decide
    have hc2 : List.countP (fun e => containsSub e ([] : StrL)) [([] : StrL)] = 1 := by
      decide
    unfold relevanceFormulaSpec
    rw [hc1, hc2]
    norm_num
  refine ⟨h1, h2, ?_⟩
  rw [h1, h2]
  norm_num

/-- C7 as amended: for every thought content string and non-empty list of
non-empty mentioned entities, the relevance score equals the fraction of
mentioned entities whose lowercase form occurs in the lowercase content plus
0.2 per exact-case substring match, clamped to 1.0 after the sum; and the
returned `related_thoughts` list is the first 5 elements of a
`(relevance_score, timestamp)`-descending sorted permutation of all thought
candidates. -/
theorem thoughtRelevance_formula_and_ranking (mentioned : List StrL)
    (hm : mentioned ≠ []) (hne : ∀ e ∈ mentioned, e ≠ []) :
    (∀ content : StrL,
        calcThoughtRelevance content mentioned = relevanceFormulaSpec content mentioned)
    ∧ ∀ data : ContextData, ∃ sorted : List ThoughtInfo,
        List.Perm (allThoughtCandidates data mentioned) sorted
        ∧ List.Pairwise thoughtGE sorted
        ∧ (formatAndRankContext data mentioned).related_thoughts = sorted.take 5 := by
  constructor
  · intro content
    by_cases hc : content = []
    · subst hc
      have h1 : calcThoughtRelevance [] mentioned = 0 := rfl
      rw [h1]
      have hc1 : List.countP (fun e => containsSub (pyLower e) (pyLower ([] : StrL)))
          mentioned = 0 := by
        rw [List.countP_eq_zero]
        intro e he
        have hpl : pyLower e ≠ [] := by
          intro habs
          have hl := congrArg List.length habs
          rw [pyLower_length] at hl
          exact hne e he (List.length_eq_zero.mp hl)
        simp only [Bool.not_eq_true]
        exact containsSub_nil hpl
      have hc2 : List.countP (fun e => containsSub e ([] : StrL)) mentioned = 0 := by
        rw [List.countP_eq_zero]
        intro e he
        simp [containsSub_nil (hne e he)]
      unfold relevanceFormulaSpec
      rw [hc1, hc2]
      norm_num
    · unfold calcThoughtRelevance relevanceFormulaSpec
      rw [isEmpty_or_false hc hm]
      have hme : mentioned.isEmpty = false := by
        cases mentioned with
        | nil => exact absurd rfl hm
        | cons a l => rfl
      rw [hme]
      simp only [Bool.false_eq_true, if_false, Bool.not_false, if_true]
      rw [min_comm]
  · intro data
    refine ⟨List.insertionSort thoughtGE (allThoughtCandidates data mentioned),
      (List.perm_insertionSort thoughtGE _).symm,
      List.sorted_insertionSort thoughtGE _, rfl⟩

/-- Witness for C7 at a concrete non-empty mention list and content. -/
theorem thoughtRelevance_formula_and_ranking_witness :
    ((["graph".data] : List StrL) ≠ [])
    ∧ (∀ e ∈ (["graph".data] : List StrL), e ≠ [])
    ∧ calcThoughtRelevance "the graph is large".data ["graph".data]
        = relevanceFormulaSpec "the graph is large".data ["graph".data] :=
  ⟨by decide, by decide,
   (thoughtRelevance_formula_and_ranking ["graph".data] (by decide) (by decide)).1
     ("the graph is large".data)⟩

/-! ### Claim C10: content filter and per-record thought cap -/

/-- C10: every thought in the returned `related_thoughts` originates from a
record whose original (pre-truncation) content has whitespace-stripped length
strictly greater than 10 (shorter or null contents are silently excluded),
and each entity record contributes at most 2 of its related thoughts. -/
theorem relatedThoughts_content_and_cap (data : ContextData) (mentioned : List StrL) :
    (∀ r ∈ data.entity_context, (entityRecordThoughts mentioned r).length ≤ 2)
    ∧ ∀ t ∈ (formatAndRankContext data mentioned).related_thoughts,
        ∃ c : StrL, 10 < (pyStrip c).length ∧ t.content = truncateContent c
          ∧ t.relevance_score = calcThoughtRelevance c mentioned := by
  constructor
  · intro r _
    unfold entityRecordThoughts
    refine le_trans (List.length_filterMap_le _ _) ?_
    simp
  · intro t ht
    have ht2 : t ∈ List.insertionSort thoughtGE (allThoughtCandidates data mentioned) :=
      List.take_subset 5 _ ht
    have ht3 : t ∈ allThoughtCandidates data mentioned :=
      (List.perm_insertionSort thoughtGE _).mem_iff.mp ht2
    unfold allThoughtCandidates at ht3
    rcases List.mem_append.mp ht3 with hent | hsess
    · rcases List.mem_flatMap.mp hent with ⟨r, hr, htr⟩
      unfold entityRecordThoughts at htr
      rcases List.mem_filterMap.mp htr with ⟨th, hth, hsome⟩
      cases hcc : th.content with
      | none =>
        rw [hcc] at hsome
        exact absurd hsome (by simp)
      | some c =>
        rw [hcc] at hsome
        dsimp only at hsome
        by_cases hcond : c ≠ [] ∧ 10 < (pyStrip c).length
        · rw [if_pos hcond] at hsome
          have ht4 := Option.some.inj hsome
          exact ⟨c, hcond.2, by rw [← ht4], by rw [← ht4]⟩
        · rw [if_neg hcond] at hsome
          exact absurd hsome (by simp)
    · unfold sessionThoughtInfos at hsess
      rcases List.mem_filterMap.mp hsess with ⟨sr, hsr, hsome⟩
      cases hcc : sr.content with
      | none =>
        rw [hcc] at hsome
        exact absurd hsome (by simp)
      | some c =>
        rw [hcc] at hsome
        dsimp only at hsome
        by_cases hcond : c ≠ [] ∧ 10 < (pyStrip c).length
        · rw [if_pos hcond] at hsome
          have ht4 := Option.some.inj hsome
          exact ⟨c, hcond.2, by rw [← ht4], by rw [← ht4]⟩
        · rw [if_neg hcond] at hsome
          exact absurd hsome (by simp)

/-- One graph thought record used by the C10 witness. -/
def thoughtRecW : ThoughtRec := ⟨some ("this is a longer thought".data), none, none, 0, none⟩

/-- One entity record used by the C10 witness. -/
def entityRecW : EntityRec := ⟨"Python".data, ["Entity".data], none, [thoughtRecW], []⟩

/-- Context data used by the C10 witness. -/
def dataW : ContextData := ⟨[entityRecW], [], []⟩

/-- Mentioned entities used by the C10 witness. -/
def mentionedW : List StrL := ["thought".data]

/-- The thought info produced from `thoughtRecW`. -/
def thoughtInfoW : ThoughtInfo :=
  ⟨"this is a longer thought".data, "unknown".data, 1/2, 0, none, none,
   calcThoughtRelevance ("this is a longer thought".data) mentionedW⟩

/-- Witness for C10 at concrete context data with one surviving thought. -/
theorem relatedThoughts_content_and_cap_witness :
    (entityRecW ∈ dataW.entity_context
      ∧ (entityRecordThoughts mentionedW entityRecW).length ≤ 2)
    ∧ (thoughtInfoW ∈ (formatAndRankContext dataW mentionedW).related_thoughts
      ∧ ∃ c : StrL, 10 < (pyStrip c).length
          ∧ thoughtInfoW.content = truncateContent c
          ∧ thoughtInfoW.relevance_score = calcThoughtRelevance c mentionedW) := by
  have hout : (formatAndRankContext dataW mentionedW).related_thoughts = [thoughtInfoW] := rfl
  have hmem : thoughtInfoW ∈ (formatAndRankContext dataW mentionedW).related_thoughts := by
    rw [hout]
    exact List.mem_singleton.mpr rfl
  exact ⟨⟨List.mem_singleton.mpr rfl,
      (relatedThoughts_content_and_cap dataW mentionedW).1 entityRecW
        (List.mem_singleton.mpr rfl)⟩,
    hmem, (relatedThoughts_content_and_cap dataW mentionedW).2 thoughtInfoW hmem⟩
